import Mathlib

/-!
Shallow embedding of the go-gateway routing core (src/main.go): the
in-memory service/API registry (the `cache` type implementing `Discovery`)
and the reverse-proxy director of `APIGateway`.

Modelling conventions:
* A Go map is modelled as an association list of its entries; a nil Go map
  is `none` in `GoMap`. Go guarantees a map's keys are pairwise distinct.
* Go pointers to records are modelled by the records themselves; the
  in-place mutation `service.APIs[api.Name] = api` becomes an update of the
  store entry holding that service.
* A nil pointer argument is `none`.
* A Go runtime panic (nil pointer dereference, assignment to a nil map) is
  the `fault` outcome of `CreateResult`; the store it carries is the store
  as the panic fires (the deferred unlock runs, no write has happened).
-/

namespace GoGateway

/-- The `API` struct of src/main.go: one backend endpoint record. -/
structure API where
  Name : String
  Service : String
  Protocol : String
  HTTPMethod : String
  Host : String
  Path : String
deriving Repr, DecidableEq

/-- An allocated Go map from string keys, as an association list of its
entries (first match wins on lookup; Go keeps keys pairwise distinct). -/
abbrev Entries (α : Type) : Type := List (String × α)

/-- A possibly-nil Go map: `none` is the nil map. -/
abbrev GoMap (α : Type) : Type := Option (Entries α)

/-- The `Service` struct of src/main.go: a name and its API map
(`map[string]*API`, possibly nil). -/
structure Service where
  Name : String
  APIs : GoMap API
deriving Repr, DecidableEq

/-- Go map read `m[k]` on an allocated map: exact string-equality lookup. -/
def mapGet {α : Type} (l : Entries α) (k : String) : Option α :=
  match l with
  | [] => none
  | (k', v) :: t => if k = k' then some v else mapGet t k

/-- Go map assignment `m[k] = v` on an allocated map: replaces the entry
for `k` when present, otherwise appends a new entry. -/
def mapSet {α : Type} (l : Entries α) (k : String) (v : α) : Entries α :=
  match l with
  | [] => [(k, v)]
  | (k', v') :: t => if k = k' then (k, v) :: t else (k', v') :: mapSet t k v

/-- Go map read `m[k]` on a possibly-nil map: reading a nil map yields
absent (no panic). -/
def GoMap.get {α : Type} (m : GoMap α) (k : String) : Option α :=
  match m with
  | none => none
  | some l => mapGet l k

/-- The `store` field of `cache`: `map[string]*Service`, allocated by
`NewCacheDiscovery`, so never nil. -/
abbrev Store : Type := Entries Service

/-- Outcome of a registry mutation: a normal nil-error return (`ok` with
the new store), a normal error return (`err` with the Go error message and
the store as left), or a Go runtime panic (`fault`, store as left). -/
inductive CreateResult : Type where
  | ok : Store → CreateResult
  | err : String → Store → CreateResult
  | fault : Store → CreateResult
deriving Repr, DecidableEq

/-- `cache.GetService` (src/main.go lines 55-63): read-only lookup by
exact name; absent names produce the formatted not-exist error. -/
def GetService (store : Store) (serviceName : String) : Except String Service :=
  match mapGet store serviceName with
  | none => .error ("service: " ++ serviceName ++ " not exist")
  | some service => .ok service

/-- `cache.CreateService` (src/main.go lines 66-80). A nil pointer or an
empty name is rejected; a duplicate name is rejected; otherwise the record
is stored verbatim, its initial APIs map included and uninspected. -/
def CreateService (store : Store) (service : Option Service) : CreateResult :=
  match service with
  | none => .err "service can not be empty" store
  | some s =>
    if s.Name = "" then .err "service can not be empty" store
    else
      match mapGet store s.Name with
      | some _ => .err ("service: " ++ s.Name ++ " already exist") store
      | none => .ok (mapSet store s.Name s)

/-- `cache.CreateAPI` (src/main.go lines 83-105). A nil pointer or empty
api name is rejected, then an empty owning-service name. When the owning
service is absent, the Go code formats `service.Name` with `service` the
nil pointer just obtained from the map: a nil pointer dereference, here
`fault`. Otherwise the duplicate check reads the (possibly nil) APIs map;
on success the write `service.APIs[api.Name] = api` is an assignment to a
nil map — another `fault` — when the APIs map is nil. -/
def CreateAPI (store : Store) (api : Option API) : CreateResult :=
  match api with
  | none => .err "api can not be empty" store
  | some a =>
    if a.Name = "" then .err "api can not be empty" store
    else if a.Service = "" then .err "service name can not be empty" store
    else
      match mapGet store a.Service with
      | none => .fault store
      | some service =>
        match GoMap.get service.APIs a.Name with
        | some _ =>
          .err ("service: " ++ a.Service ++ ", api: " ++ a.Name ++ " already exist") store
        | none =>
          match service.APIs with
          | none => .fault store
          | some apis =>
            .ok (mapSet store a.Service { service with APIs := some (mapSet apis a.Name a) })

/-- The fields of `url.URL` the director reads or writes; `RawQuery` is
the query string, never touched by the director. -/
structure URL where
  Scheme : String
  Host : String
  Path : String
  RawQuery : String
deriving Repr, DecidableEq

/-- The fields of `http.Request` the director reads or writes. -/
structure Request where
  Method : String
  URL : URL
  Body : String
deriving Repr, DecidableEq

/-- Go `strings.Split(s, "/")` on the character list of `s`: splits at
every separator, keeping empty segments, and yields one more segment than
there are separators. -/
def splitSlash : List Char → List (List Char)
  | [] => [[]]
  | c :: cs =>
    if c = '/' then [] :: splitSlash cs
    else
      match splitSlash cs with
      | [] => [[c]]
      | seg :: rest => (c :: seg) :: rest

/-- `APIGateway.director` (src/main.go lines 155-188): resolve the path
`/{servicename}/{apiname}` against the registry. An empty path, a split
of other than three pieces, an unknown service or an unknown API each
return the request unmodified. A method mismatch is only logged. On
success the URL's scheme, host and path are overwritten, the path with a
single leading slash prepended to the API's declared path. -/
def director (store : Store) (req : Request) : Request :=
  if req.URL.Path = "" then req
  else
    match splitSlash req.URL.Path.toList with
    | [_, s1, s2] =>
      match GetService store (String.mk s1) with
      | .error _ => req
      | .ok service =>
        match GoMap.get service.APIs (String.mk s2) with
        | none => req
        | some api =>
          { req with
            URL := { req.URL with
                      Scheme := api.Protocol
                      Host := api.Host
                      Path := "/" ++ api.Path } }
    | _ => req

/-- Keys of an entries list are pairwise distinct. -/
def keysNodup {α : Type} (l : Entries α) : Prop := (l.map Prod.fst).Nodup

/-- A possibly-nil Go map has pairwise-distinct keys (always true of a
real Go map; the nil map holds it vacuously). -/
def GoMap.WF {α : Type} (m : GoMap α) : Prop := ∀ l, m = some l → keysNodup l

/-- Registry states reachable from the fresh empty store through
successful `CreateService` / `CreateAPI` calls. A `CreateService`
argument arrives as a decoded Go map, whose keys are pairwise distinct by
construction of Go maps; the `GoMap.WF` hypothesis records exactly that. -/
inductive Reachable : Store → Prop where
  | init : Reachable []
  | createService {st st' : Store} {s : Service} :
      Reachable st → GoMap.WF s.APIs →
      CreateService st (some s) = .ok st' → Reachable st'
  | createAPI {st st' : Store} {a : API} :
      Reachable st → CreateAPI st (some a) = .ok st' → Reachable st'

/-! ### Association-list lemmas for the Go map model -/

theorem mapGet_mapSet_self {α : Type} (l : Entries α) (k : String) (v : α) :
    mapGet (mapSet l k v) k = some v := by
  induction l with
  | nil => simp [mapSet, mapGet]
  | cons p t ih =>
    obtain ⟨k', v'⟩ := p
    by_cases h : k = k'
    · simp [mapSet, mapGet, h]
    · simp [mapSet, mapGet, h, ih]

theorem mapGet_mem {α : Type} {l : Entries α} {k : String} {v : α}
    (h : mapGet l k = some v) : (k, v) ∈ l := by
  induction l with
  | nil => simp [mapGet] at h
  | cons q t ih =>
    obtain ⟨k', v'⟩ := q
    by_cases hk : k = k'
    · simp [mapGet, hk] at h
      subst hk
      exact h ▸ List.mem_cons_self _ _
    · simp [mapGet, hk] at h
      exact List.mem_cons_of_mem _ (ih h)

theorem mapGet_none_not_mem {α : Type} {l : Entries α} {k : String}
    (h : mapGet l k = none) : k ∉ l.map Prod.fst := by
  induction l with
  | nil => simp
  | cons q t ih =>
    obtain ⟨k', v'⟩ := q
    by_cases hk : k = k'
    · simp [mapGet, hk] at h
    · simp [mapGet, hk] at h
      intro hm
      rcases List.mem_cons.mp hm with h1 | h1
      · exact hk h1
      · exact ih h h1

theorem keys_mapSet_found {α : Type} {l : Entries α} {k : String} {w : α} (v : α)
    (h : mapGet l k = some w) :
    (mapSet l k v).map Prod.fst = l.map Prod.fst := by
  induction l with
  | nil => simp [mapGet] at h
  | cons q t ih =>
    obtain ⟨k', v'⟩ := q
    by_cases hk : k = k'
    · simp [mapSet, hk]
    · simp [mapGet, hk] at h
      simp [mapSet, hk, ih h]

theorem keys_mapSet_new {α : Type} {l : Entries α} {k : String} (v : α)
    (h : mapGet l k = none) :
    (mapSet l k v).map Prod.fst = l.map Prod.fst ++ [k] := by
  induction l with
  | nil => simp [mapSet]
  | cons q t ih =>
    obtain ⟨k', v'⟩ := q
    by_cases hk : k = k'
    · simp [mapGet, hk] at h
    · simp [mapGet, hk] at h
      simp [mapSet, hk, ih h]

theorem keysNodup_mapSet {α : Type} {l : Entries α} {k : String} (v : α)
    (h : keysNodup l) : keysNodup (mapSet l k v) := by
  unfold keysNodup at h ⊢
  rcases hg : mapGet l k with _ | w
  · rw [keys_mapSet_new v hg, List.nodup_append]
    refine ⟨h, List.nodup_singleton k, ?_⟩
    intro x hx hx2
    rw [List.mem_singleton] at hx2
    subst hx2
    exact mapGet_none_not_mem hg hx
  · rw [keys_mapSet_found v hg]
    exact h

theorem mem_mapSet {α : Type} {l : Entries α} {k : String} {v : α} {p : String × α}
    (h : p ∈ mapSet l k v) : p = (k, v) ∨ p ∈ l := by
  induction l with
  | nil =>
    simp [mapSet] at h
    exact Or.inl h
  | cons q t ih =>
    obtain ⟨k', v'⟩ := q
    by_cases hk : k = k'
    · rw [mapSet, if_pos hk] at h
      rcases List.mem_cons.mp h with h1 | h1
      · exact Or.inl h1
      · exact Or.inr (List.mem_cons_of_mem _ h1)
    · rw [mapSet, if_neg hk] at h
      rcases List.mem_cons.mp h with h1 | h1
      · exact Or.inr (h1 ▸ List.mem_cons_self _ _)
      · rcases ih h1 with h2 | h2
        · exact Or.inl h2
        · exact Or.inr (List.mem_cons_of_mem _ h2)

/-! ### Lemmas about the modelled strings.Split -/

theorem splitSlash_noSlash {l : List Char} (h : '/' ∉ l) : splitSlash l = [l] := by
  induction l with
  | nil => rfl
  | cons c cs ih =>
    have hc : ¬c = '/' := fun e => h (e ▸ List.mem_cons_self c cs)
    have hcs : '/' ∉ cs := fun m => h (List.mem_cons_of_mem c m)
    simp [splitSlash, hc, ih hcs]

theorem splitSlash_append {xs ys : List Char} (h : '/' ∉ xs) :
    splitSlash (xs ++ '/' :: ys) = xs :: splitSlash ys := by
  induction xs with
  | nil => simp [splitSlash]
  | cons c cs ih =>
    have hc : ¬c = '/' := fun e => h (e ▸ List.mem_cons_self c cs)
    have hcs : '/' ∉ cs := fun m => h (List.mem_cons_of_mem c m)
    simp [splitSlash, hc, ih hcs]

theorem toList_append (s t : String) : (s ++ t).toList = s.toList ++ t.toList := rfl

theorem mk_toList (s : String) : String.mk s.toList = s := rfl

theorem toList_two_seg (s a : String) :
    ("/" ++ s ++ "/" ++ a).toList = '/' :: (s.toList ++ '/' :: a.toList) := by
  have h0 : "/".toList = ['/'] := rfl
  simp [toList_append, h0]

theorem path_split {s a : String} (hs : '/' ∉ s.toList) (ha : '/' ∉ a.toList) :
    splitSlash ("/" ++ s ++ "/" ++ a).toList = [[], s.toList, a.toList] := by
  rw [toList_two_seg]
  have h2 : splitSlash ('/' :: (s.toList ++ '/' :: a.toList)) =
      [] :: splitSlash (s.toList ++ '/' :: a.toList) := by
    simp [splitSlash]
  rw [h2, splitSlash_append hs, splitSlash_noSlash ha]

/-! ### Inversion of the successful create paths -/

theorem CreateService_ok_inv {st st' : Store} {s : Service}
    (h : CreateService st (some s) = .ok st') :
    s.Name ≠ "" ∧ mapGet st s.Name = none ∧ st' = mapSet st s.Name s := by
  by_cases hn : s.Name = ""
  · simp [CreateService, hn] at h
  · rcases hg : mapGet st s.Name with _ | v
    · simp [CreateService, hn, hg] at h
      exact ⟨hn, rfl, h.symm⟩
    · simp [CreateService, hn, hg] at h

theorem CreateAPI_ok_inv {st st' : Store} {a : API}
    (h : CreateAPI st (some a) = .ok st') :
    a.Name ≠ "" ∧ a.Service ≠ "" ∧ ∃ svc apis,
      mapGet st a.Service = some svc ∧ svc.APIs = some apis ∧
      mapGet apis a.Name = none ∧
      st' = mapSet st a.Service { svc with APIs := some (mapSet apis a.Name a) } := by
  by_cases h1 : a.Name = ""
  · simp [CreateAPI, h1] at h
  · by_cases h2 : a.Service = ""
    · simp [CreateAPI, h1, h2] at h
    · rcases hg : mapGet st a.Service with _ | svc
      · simp [CreateAPI, h1, h2, hg] at h
      · rcases hA : svc.APIs with _ | apis
        · simp [CreateAPI, h1, h2, hg, GoMap.get, hA] at h
        · rcases hd : mapGet apis a.Name with _ | w
          · simp [CreateAPI, h1, h2, hg, GoMap.get, hA, hd] at h
            exact ⟨h1, h2, svc, apis, rfl, hA, hd, h.symm⟩
          · simp [CreateAPI, h1, h2, hg, GoMap.get, hA, hd] at h

/-! ### The reachable-state invariant -/

theorem reachable_invariant {st : Store} (h : Reachable st) :
    keysNodup st ∧ ∀ p ∈ st, p.1 ≠ "" ∧ GoMap.WF p.2.APIs := by
  induction h with
  | init => exact ⟨List.nodup_nil, by simp⟩
  | createService hr hwf hok ih =>
    obtain ⟨hn, hg, hst⟩ := CreateService_ok_inv hok
    subst hst
    refine ⟨keysNodup_mapSet _ ih.1, ?_⟩
    intro p hp
    rcases mem_mapSet hp with h1 | h1
    · subst h1
      exact ⟨hn, hwf⟩
    · exact ih.2 p h1
  | createAPI hr hok ih =>
    obtain ⟨h1, h2, svc, apis, hg, hA, hd, hst⟩ := CreateAPI_ok_inv hok
    subst hst
    refine ⟨keysNodup_mapSet _ ih.1, ?_⟩
    intro p hp
    rcases mem_mapSet hp with hm | hm
    · subst hm
      refine ⟨h2, ?_⟩
      intro l hl
      have hsvcWF := (ih.2 _ (mapGet_mem hg)).2
      have hnodup : keysNodup apis := hsvcWF apis hA
      have : l = mapSet apis _ _ := (Option.some.inj hl).symm
      rw [this]
      exact keysNodup_mapSet _ hnodup
    · exact ih.2 p hm

/-! ### Director resolution helpers -/

theorem mapGet_of_GetService_ok {store : Store} {s : String} {svc : Service}
    (h : GetService store s = .ok svc) : mapGet store s = some svc := by
  rcases hg : mapGet store s with _ | v
  · simp [GetService, hg] at h
  · simp [GetService, hg] at h
    rw [h]

theorem director_resolved (store : Store) (req : Request) (s a : String)
    (svc : Service) (api : API)
    (hpath : req.URL.Path = "/" ++ s ++ "/" ++ a)
    (hs : '/' ∉ s.toList) (ha : '/' ∉ a.toList)
    (hsvc : mapGet store s = some svc)
    (hapi : GoMap.get svc.APIs a = some api) :
    director store req =
      { req with URL := { req.URL with
          Scheme := api.Protocol, Host := api.Host, Path := "/" ++ api.Path } } := by
  have hne : req.URL.Path ≠ "" := by
    rw [hpath]
    intro he
    have h2 := congrArg String.toList he
    rw [toList_two_seg] at h2
    simp at h2
  rw [director, if_neg hne, hpath, path_split hs ha]
  simp [mk_toList, GetService, hsvc, hapi]

theorem director_no_resolve (store : Store) (req : Request)
    (h : ∀ x y z, splitSlash req.URL.Path.toList = [x, y, z] →
        mapGet store (String.mk y) = none ∨
        ∃ svc, mapGet store (String.mk y) = some svc ∧
          GoMap.get svc.APIs (String.mk z) = none) :
    director store req = req := by
  by_cases hp : req.URL.Path = ""
  · simp [director, hp]
  · rw [director, if_neg hp]
    rcases hsp : splitSlash req.URL.Path.toList with _ | ⟨x, _ | ⟨y, _ | ⟨z, _ | ⟨w, rest⟩⟩⟩⟩
    · rfl
    · rfl
    · rfl
    · rcases h x y z hsp with hnone | ⟨svc, hsvc, hnoapi⟩
      · simp [GetService, hnone]
      · simp [GetService, hsvc, hnoapi]
    · rfl

/-! ### Sample records used by concrete witnesses (taken from the spec's
userService/createUser example) -/

def sampleAPI : API :=
  { Name := "createUser", Service := "userService", Protocol := "http",
    HTTPMethod := "POST", Host := "198.15.26.10:8080", Path := "user/createUser" }

def sampleService : Service :=
  { Name := "userService", APIs := some [("createUser", sampleAPI)] }

def sampleStore : Store := [("userService", sampleService)]

/-! ### The claims -/

/-- C1: the claim says `CreateAPI` for an API whose owning service is not
registered returns a NotFoundError with the registry unchanged. The code
instead evaluates `service.Name` on the nil `*Service` it just failed to
find, while formatting that very error: a nil pointer dereference. At the
concrete failing input (empty registry, API owned by `missing`) the call
faults; the registry is indeed left unchanged, but no error value is ever
returned. -/
theorem C1_missing_service_nil_dereference :
    CreateAPI []
        (some { Name := "a", Service := "missing", Protocol := "http",
                HTTPMethod := "GET", Host := "h", Path := "p" }) = .fault [] := by
  decide

/-- C2: for a request whose path is `/{s}/{a}` with service `s` registered
and holding API `a`, the director overwrites the outbound URL's scheme
with the API's protocol, host with the API's host and path with `/` + the
API's declared path, leaving the method, query string and body untouched. -/
theorem C2_success_rewrite (store : Store) (req : Request) (s a : String)
    (svc : Service) (api : API)
    (hpath : req.URL.Path = "/" ++ s ++ "/" ++ a)
    (hs : '/' ∉ s.toList) (ha : '/' ∉ a.toList)
    (hsvc : GetService store s = .ok svc)
    (hapi : GoMap.get svc.APIs a = some api) :
    director store req =
      { req with URL := { req.URL with
          Scheme := api.Protocol, Host := api.Host, Path := "/" ++ api.Path } } :=
  director_resolved store req s a svc api hpath hs ha (mapGet_of_GetService_ok hsvc) hapi

/-- Witness for C2 at the spec's example: resolving
`/userService/createUser` rewrites the target to scheme `http`, host
`198.15.26.10:8080`, path `/user/createUser`, keeping query and body. -/
theorem C2_success_rewrite_witness :
    director sampleStore
        { Method := "POST",
          URL := { Scheme := "", Host := "", Path := "/userService/createUser",
                   RawQuery := "q=1" },
          Body := "payload" } =
      { Method := "POST",
        URL := { Scheme := "http", Host := "198.15.26.10:8080",
                 Path := "/user/createUser", RawQuery := "q=1" },
        Body := "payload" } :=
  C2_success_rewrite sampleStore _ "userService" "createUser" sampleService sampleAPI
    (by decide) (by decide) (by decide) rfl rfl

/-- C3: on every resolution failure — a split of the wrong piece count, a
first segment naming no registered service, or a second segment naming no
API of the resolved service — the director returns the inbound request
exactly as it arrived: scheme, host, path, method, query string and body
all unmodified. -/
theorem C3_resolution_failure_frame (store : Store) (req : Request)
    (h : (splitSlash req.URL.Path.toList).length ≠ 3 ∨
         (∃ x y z, splitSlash req.URL.Path.toList = [x, y, z] ∧
            mapGet store (String.mk y) = none) ∨
         (∃ x y z svc, splitSlash req.URL.Path.toList = [x, y, z] ∧
            mapGet store (String.mk y) = some svc ∧
            GoMap.get svc.APIs (String.mk z) = none)) :
    director store req = req := by
  apply director_no_resolve
  intro x y z hxyz
  rcases h with h | h | h
  · exact absurd (by rw [hxyz]; rfl) h
  · obtain ⟨x', y', z', hsp, hnone⟩ := h
    rw [hxyz] at hsp
    obtain ⟨h1, h2, h3⟩ : x = x' ∧ y = y' ∧ z = z' := by simpa using hsp
    subst h2
    exact Or.inl hnone
  · obtain ⟨x', y', z', svc, hsp, hsvc, hnoapi⟩ := h
    rw [hxyz] at hsp
    obtain ⟨h1, h2, h3⟩ : x = x' ∧ y = y' ∧ z = z' := by simpa using hsp
    subst h2
    subst h3
    exact Or.inr ⟨svc, hsvc, hnoapi⟩

/-- Witness for C3: path `/unknown/foo` against the empty registry leaves
the request untouched. -/
theorem C3_resolution_failure_frame_witness :
    director []
        { Method := "GET",
          URL := { Scheme := "", Host := "", Path := "/unknown/foo", RawQuery := "x=2" },
          Body := "b" } =
      { Method := "GET",
        URL := { Scheme := "", Host := "", Path := "/unknown/foo", RawQuery := "x=2" },
        Body := "b" } :=
  C3_resolution_failure_frame [] _
    (Or.inr (Or.inl ⟨[], "unknown".toList, "foo".toList, by decide, rfl⟩))

/-- C4: in every reachable registry state, service names are unique across
the registry and API names are unique within their service; creating a
service under an already-registered name, or an API under an
already-registered (service, name) pair, fails with the conflict error and
hands back the very same store. -/
theorem C4_registry_uniqueness (st : Store) (h : Reachable st) :
    keysNodup st ∧
    (∀ p ∈ st, GoMap.WF p.2.APIs) ∧
    (∀ s : Service, (∃ v, mapGet st s.Name = some v) →
        CreateService st (some s) =
          .err ("service: " ++ s.Name ++ " already exist") st) ∧
    (∀ a : API, a.Name ≠ "" → a.Service ≠ "" →
        ∀ svc, mapGet st a.Service = some svc →
        (∃ v, GoMap.get svc.APIs a.Name = some v) →
        CreateAPI st (some a) =
          .err ("service: " ++ a.Service ++ ", api: " ++ a.Name ++ " already exist") st) := by
  obtain ⟨hnodup, hwf⟩ := reachable_invariant h
  refine ⟨hnodup, fun p hp => (hwf p hp).2, ?_, ?_⟩
  · rintro s ⟨v, hv⟩
    have hn : s.Name ≠ "" := fun he => (hwf _ (mapGet_mem hv)).1 he
    simp [CreateService, hn, hv]
  · rintro a h1 h2 svc hsvc ⟨v, hv⟩
    simp [CreateAPI, h1, h2, hsvc, hv]

/-- Witness for C4: re-registering service `a` in the reachable one-service
registry yields the conflict error and the unchanged store. -/
theorem C4_registry_uniqueness_witness :
    CreateService [("a", { Name := "a", APIs := some [] })]
        (some { Name := "a", APIs := some [] }) =
      .err "service: a already exist" [("a", { Name := "a", APIs := some [] })] := by
  have hr : Reachable [("a", { Name := "a", APIs := some ([] : Entries API) })] :=
    @Reachable.createService [] [("a", { Name := "a", APIs := some [] })]
      { Name := "a", APIs := some [] } Reachable.init
      (fun l hl => by
        obtain rfl : l = [] := (Option.some.inj hl).symm
        exact List.nodup_nil)
      (by decide)
  exact (C4_registry_uniqueness _ hr).2.2.1 { Name := "a", APIs := some [] }
    ⟨{ Name := "a", APIs := some [] }, by decide⟩

/-- A service registered with an initial API map keyed by the empty
string; `CreateService` stores it verbatim, so this registry is
reachable. -/
def emptyKeyAPI : API :=
  { Name := "", Service := "a", Protocol := "http", HTTPMethod := "GET",
    Host := "10.0.0.1:80", Path := "p" }

def emptyKeyService : Service := { Name := "a", APIs := some [("", emptyKeyAPI)] }

def emptyKeyStore : Store := [("a", emptyKeyService)]

def emptySecondSegReq : Request :=
  { Method := "GET",
    URL := { Scheme := "", Host := "", Path := "/a/", RawQuery := "" },
    Body := "" }

/-- C5 counterexample: the claim says every path with an empty second
segment is a resolution failure that leaves the request unmodified. In the
reachable registry where service `a` was created with an initial API map
containing the key `""`, the path `/a/` splits into three pieces, passes
the director's only shape check, resolves the empty-named API, and the
request is rewritten. -/
theorem C5_counterexample :
    Reachable emptyKeyStore ∧
    director emptyKeyStore emptySecondSegReq ≠ emptySecondSegReq := by
  constructor
  · exact @Reachable.createService [] emptyKeyStore emptyKeyService Reachable.init
      (fun l hl => by
        obtain rfl : l = [("", emptyKeyAPI)] := (Option.some.inj hl).symm
        exact List.nodup_singleton "")
      (by decide)
  · decide

/-- C5 amended: the director's shape check accepts exactly the paths whose
split on `/` has three pieces, with no non-emptiness requirement on the
segments; every other piece count leaves the request unmodified, and a
path whose first segment is empty is always a resolution failure against a
reachable registry, because service names are validated non-empty. (A path
with an empty second segment can resolve, as the counterexample shows.) -/
theorem C5_amended_shape (store : Store) (req : Request)
    (h : (splitSlash req.URL.Path.toList).length ≠ 3 ∨
         (Reachable store ∧ ∃ x z, splitSlash req.URL.Path.toList = [x, [], z])) :
    director store req = req := by
  apply director_no_resolve
  intro x y z hxyz
  rcases h with h | ⟨hreach, x', z', hsp⟩
  · exact absurd (by rw [hxyz]; rfl) h
  · rw [hxyz] at hsp
    obtain ⟨h1, h2, h3⟩ : x = x' ∧ y = [] ∧ z = z' := by simpa using hsp
    subst h2
    left
    rcases hg : mapGet store (String.mk []) with _ | v
    · rfl
    · exfalso
      exact ((reachable_invariant hreach).2 _ (mapGet_mem hg)).1 rfl

/-- Witness for C5 amended: the four-piece path `/a/b/c` leaves the
request unmodified. -/
theorem C5_amended_shape_witness :
    director []
        { Method := "GET",
          URL := { Scheme := "", Host := "", Path := "/a/b/c", RawQuery := "" },
          Body := "" } =
      { Method := "GET",
        URL := { Scheme := "", Host := "", Path := "/a/b/c", RawQuery := "" },
        Body := "" } :=
  C5_amended_shape [] _ (Or.inl (by decide))

/-- C6: `CreateService` stores the submitted record verbatim, its initial
API mapping left unvalidated and uninitialized; consequently, for a
service registered with a nil API mapping, a `CreateAPI` call that passes
the emptiness, existence and duplicate checks ends in a runtime fault on
the final write into the nil map, not in an insertion. -/
theorem C6_verbatim_and_nil_map_fault (store : Store) :
    (∀ (s : Service) (st' : Store),
        CreateService store (some s) = .ok st' → mapGet st' s.Name = some s) ∧
    (∀ (a : API) (svc : Service), a.Name ≠ "" → a.Service ≠ "" →
        mapGet store a.Service = some svc → svc.APIs = none →
        CreateAPI store (some a) = .fault store) := by
  constructor
  · intro s st' hok
    obtain ⟨-, -, hst⟩ := CreateService_ok_inv hok
    rw [hst]
    exact mapGet_mapSet_self store s.Name s
  · intro a svc h1 h2 hsvc hA
    simp [CreateAPI, h1, h2, hsvc, GoMap.get, hA]

def nilService : Service := { Name := "nilsvc", APIs := none }

def nilStore : Store := [("nilsvc", nilService)]

def apiForNil : API :=
  { Name := "x", Service := "nilsvc", Protocol := "http", HTTPMethod := "GET",
    Host := "h", Path := "p" }

/-- Witness for C6: the service `nilsvc` stored with a nil API map makes
the otherwise-valid `CreateAPI` call fault, leaving the store as it was. -/
theorem C6_verbatim_and_nil_map_fault_witness :
    CreateAPI nilStore (some apiForNil) = .fault nilStore :=
  (C6_verbatim_and_nil_map_fault nilStore).2 apiForNil nilService
    (by decide) (by decide) (by decide) rfl

/-- C7: after a successful `CreateAPI`, `GetService` of the owning service
followed by a lookup of the API's name in its mapping returns exactly the
record passed at creation. -/
theorem C7_create_then_get (store st' : Store) (a : API)
    (h : CreateAPI store (some a) = .ok st') :
    ∃ svc, GetService st' a.Service = .ok svc ∧ GoMap.get svc.APIs a.Name = some a := by
  obtain ⟨h1, h2, svc, apis, hg, hA, hd, hst⟩ := CreateAPI_ok_inv h
  refine ⟨{ svc with APIs := some (mapSet apis a.Name a) }, ?_, ?_⟩
  · rw [hst]
    simp [GetService, mapGet_mapSet_self]
  · simp [GoMap.get, mapGet_mapSet_self]

def apiX : API :=
  { Name := "x", Service := "s1", Protocol := "https", HTTPMethod := "GET",
    Host := "b:1", Path := "bp" }

def storeBefore : Store := [("s1", { Name := "s1", APIs := some [] })]

def storeAfter : Store := [("s1", { Name := "s1", APIs := some [("x", apiX)] })]

/-- Witness for C7 on a concrete creation. -/
theorem C7_create_then_get_witness :
    ∃ svc, GetService storeAfter "s1" = .ok svc ∧ GoMap.get svc.APIs "x" = some apiX :=
  C7_create_then_get storeBefore storeAfter apiX (by decide)

/-- C8: when the path resolves but the inbound method differs from the
API's declared method, the director still performs the full backend
rewrite, identically to the matching-method case; the mismatch never
blocks the request. -/
theorem C8_method_mismatch_still_rewrites (store : Store) (req : Request)
    (s a : String) (svc : Service) (api : API)
    (hpath : req.URL.Path = "/" ++ s ++ "/" ++ a)
    (hs : '/' ∉ s.toList) (ha : '/' ∉ a.toList)
    (hsvc : GetService store s = .ok svc)
    (hapi : GoMap.get svc.APIs a = some api)
    (_hmm : req.Method ≠ api.HTTPMethod) :
    director store req =
      { req with URL := { req.URL with
          Scheme := api.Protocol, Host := api.Host, Path := "/" ++ api.Path } } ∧
    (director store req).URL =
      (director store { req with Method := api.HTTPMethod }).URL := by
  have hm := mapGet_of_GetService_ok hsvc
  have hA := director_resolved store req s a svc api hpath hs ha hm hapi
  have hB := director_resolved store { req with Method := api.HTTPMethod }
    s a svc api hpath hs ha hm hapi
  exact ⟨hA, by rw [hA, hB]⟩

/-- Witness for C8: a GET request against the POST-declared `createUser`
API is rewritten all the same. -/
theorem C8_method_mismatch_still_rewrites_witness :
    director sampleStore
        { Method := "GET",
          URL := { Scheme := "", Host := "", Path := "/userService/createUser",
                   RawQuery := "" },
          Body := "" } =
      { Method := "GET",
        URL := { Scheme := "http", Host := "198.15.26.10:8080",
                 Path := "/user/createUser", RawQuery := "" },
        Body := "" } :=
  (C8_method_mismatch_still_rewrites sampleStore _ "userService" "createUser"
      sampleService sampleAPI (by decide) (by decide) (by decide) rfl rfl
      (by decide)).1

/-- C9: every create call with a malformed or empty identifying field — a
nil or empty-name service for `CreateService`; a nil API, empty API name
or empty owning-service name for `CreateAPI` — returns the validation
error message and hands back the store exactly as it was. -/
theorem C9_validation_rejects (store : Store) :
    CreateService store none = .err "service can not be empty" store ∧
    (∀ s : Service, s.Name = "" →
        CreateService store (some s) = .err "service can not be empty" store) ∧
    CreateAPI store none = .err "api can not be empty" store ∧
    (∀ a : API, a.Name = "" →
        CreateAPI store (some a) = .err "api can not be empty" store) ∧
    (∀ a : API, a.Name ≠ "" → a.Service = "" →
        CreateAPI store (some a) = .err "service name can not be empty" store) := by
  refine ⟨rfl, fun s hs => by simp [CreateService, hs], rfl,
    fun a ha => by simp [CreateAPI, ha], fun a ha hsvc => by simp [CreateAPI, ha, hsvc]⟩

/-- Witness for C9: the empty-name service is rejected without touching
the sample registry. -/
theorem C9_validation_rejects_witness :
    CreateService sampleStore (some { Name := "", APIs := none }) =
      .err "service can not be empty" sampleStore :=
  (C9_validation_rejects sampleStore).2.1 { Name := "", APIs := none } rfl

end GoGateway
